import Mathlib

/-
Verification of the invenio-stats event pipeline against its specification.

This development shallowly embeds the event preprocessing and indexing code
of `invenio_stats/processors.py`, the geolocation helper of
`invenio_stats/utils.py`, and the unique-id builder of
`invenio_stats/contrib/event_builders.py`.

Events are Python dictionaries; we model them as maps from field names to
optional values (`Doc`).  The cryptographic digests (SHA-224, SHA-1,
UUIDv3) and the external geolocation / robot classifiers are modelled as
abstract function parameters: every claim under scrutiny concerns which
strings are hashed and how results are assembled, never digest internals.
Timestamps are modelled by their parsed calendar components (`DateTime`);
the epoch conversions of `time.mktime` / `datetime.fromtimestamp` are
implemented over the proleptic Gregorian calendar, with the host clock
assumed to be UTC.
-/

namespace InvenioStats

/-- A parsed timestamp, as carried by `datetime.datetime` in the source:
calendar components plus microseconds. -/
structure DateTime where
  year : Nat
  month : Nat
  day : Nat
  hour : Nat
  minute : Nat
  second : Nat
  usec : Nat
  deriving DecidableEq, Repr

/-- Leap-corrected day count used by the year-of-era computation in
`civilFromDays` (numerator of Hinnant's `yoe` formula). -/
def yNum (doe : Nat) : Nat := doe - doe / 1460 + doe / 36524 - doe / 146096

/-- Year of era (0..399) of a day of era (0..146096). -/
def yearOfEra (doe : Nat) : Nat := yNum doe / 365

/-- Days before year-of-era `y` within one 400-year era. -/
def dby (y : Nat) : Nat := 365 * y + y / 4 - y / 100

/-- Days since 1970-01-01 of the civil date (y, m, d): the conversion
performed by `time.mktime` on a UTC time tuple (Hinnant's
`days_from_civil`, as in C libraries backing CPython). -/
def daysFromCivil (y m d : Nat) : Nat :=
  let y2 := if m ≤ 2 then y - 1 else y
  let era := y2 / 400
  let yoe := y2 % 400
  let mp := if 2 < m then m - 3 else m + 9
  let doy := (153 * mp + 2) / 5 + d - 1
  let doe := dby yoe + doy
  era * 146097 + doe - 719468

/-- Civil date (y, m, d) from days since 1970-01-01: the conversion
performed by `datetime.fromtimestamp` (Hinnant's `civil_from_days`). -/
def civilFromDays (z0 : Nat) : Nat × Nat × Nat :=
  let z := z0 + 719468
  let era := z / 146097
  let doe := z % 146097
  let yoe := yearOfEra doe
  let y := yoe + era * 400
  let doy := doe - dby yoe
  let mp := (5 * doy + 2) / 153
  let d := doy - (153 * mp + 2) / 5 + 1
  let m := if mp < 10 then mp + 3 else mp - 9
  (if m ≤ 2 then y + 1 else y, m, d)

/-- Boundary checks of the year-of-era formula at the first and last day
of each year of an era; verified for all 400 years by evaluation. -/
def yearCheck (y : Nat) : Bool :=
  (yearOfEra (dby y) == y) && (yearOfEra (dby (y + 1) - 1) == y)

/-- Epoch seconds of a timestamp, as computed by
`mktime(utc.localize(ts).utctimetuple())` in `EventsIndexer.actionsiter`
(the time tuple drops microseconds). -/
def toEpoch (t : DateTime) : Nat :=
  daysFromCivil t.year t.month t.day * 86400 +
    t.hour * 3600 + t.minute * 60 + t.second

/-- Timestamp from a whole number of epoch seconds:
`datetime.fromtimestamp` (microseconds are zero). -/
def fromEpoch (e : Nat) : DateTime :=
  let c := civilFromDays (e / 86400)
  let rem := e % 86400
  ⟨c.1, c.2.1, c.2.2, rem / 3600, rem % 3600 / 60, rem % 60, 0⟩

/-- `ts.replace(microsecond=0)`: truncate a timestamp to whole seconds. -/
def truncateSec (t : DateTime) : DateTime :=
  { t with usec := 0 }

/-- Decimal digit character. -/
def digitChar (n : Nat) : Char :=
  match n with
  | 0 => '0'
  | 1 => '1'
  | 2 => '2'
  | 3 => '3'
  | 4 => '4'
  | 5 => '5'
  | 6 => '6'
  | 7 => '7'
  | 8 => '8'
  | 9 => '9'
  | _ => '*'

/-- Two-digit zero-padded decimal rendering (Python `%02d` for values
below 100, which is the range of every field it is applied to). -/
def pad2 (n : Nat) : List Char :=
  [digitChar (n / 10 % 10), digitChar (n % 10)]

/-- Four-digit zero-padded decimal rendering (Python `%04d`; `datetime`
years never exceed 9999). -/
def pad4 (n : Nat) : List Char :=
  [digitChar (n / 1000 % 10), digitChar (n / 100 % 10),
   digitChar (n / 10 % 10), digitChar (n % 10)]

/-- Six-digit zero-padded decimal rendering (Python `%06d`). -/
def pad6 (n : Nat) : List Char :=
  [digitChar (n / 100000 % 10), digitChar (n / 10000 % 10),
   digitChar (n / 1000 % 10), digitChar (n / 100 % 10),
   digitChar (n / 10 % 10), digitChar (n % 10)]

/-- `datetime.isoformat()`: `YYYY-MM-DDTHH:MM:SS`, with a `.ffffff`
fraction appended only when microseconds are nonzero. -/
def isoformat (t : DateTime) : String :=
  String.mk (pad4 t.year ++ '-' :: pad2 t.month ++ '-' :: pad2 t.day ++
    'T' :: pad2 t.hour ++ ':' :: pad2 t.minute ++ ':' :: pad2 t.second ++
    (if t.usec = 0 then [] else '.' :: pad6 t.usec))

/-- `strftime('%Y%m%d%H')`: the hourly time slice used by
`anonymize_user`. -/
def timesliceOf (t : DateTime) : String :=
  String.mk (pad4 t.year ++ pad2 t.month ++ pad2 t.day ++ pad2 t.hour)

/-- `strftime('%Y-%m-%d')`: the default index suffix of
`EventsIndexer`. -/
def suffixOf (t : DateTime) : String :=
  String.mk (pad4 t.year ++ '-' :: pad2 t.month ++ '-' :: pad2 t.day)

/-- A Python value stored in an event dictionary.  Timestamps are carried
in parsed form (`vTime`), modelling `arrow.get` / `dateutil.parser.parse`
of the ISO string the builders put there. -/
inductive Value where
  | vStr (s : String)
  | vBool (b : Bool)
  | vNull
  | vTime (t : DateTime)
  deriving DecidableEq, Repr

/-- An event dictionary: a map from field names to optionally present
values. -/
def Doc : Type := String → Option Value

/-- `doc[k] = v`: set a field. -/
def dset (d : Doc) (k : String) (v : Value) : Doc :=
  fun x => if x = k then some v else d x

/-- `doc.pop(k, default)`: remove a field (the popped value is read off
the original map separately). -/
def dpop (d : Doc) (k : String) : Doc :=
  fun x => if x = k then none else d x

/-- Python truthiness of an optional dictionary value (absent fields pop
to falsy defaults `None` or `''` in the source). -/
def truthy : Option Value → Bool
  | some (.vStr s) => !(s == "")
  | some (.vBool b) => b
  | some .vNull => false
  | some (.vTime _) => true
  | none => false

/-- Python `str()` of a value. -/
def pyStr : Value → String
  | .vStr s => s
  | .vBool b => if b then "True" else "False"
  | .vNull => "None"
  | .vTime t => isoformat t

/-- Python `str()` applied to a possibly absent value, as in
`str(msg.get('visitor_id'))`: an absent field renders as `"None"`. -/
def pyStrOpt : Option Value → String
  | none => "None"
  | some v => pyStr v

/-- Rendering of a value popped with default `''` when interpolated by
`str.format`: an absent field contributes the empty string. -/
def fmtVal : Option Value → String
  | none => ""
  | some v => pyStr v

/-- `anonymize_user` from `invenio_stats/processors.py`, parameterised by
the SHA-224 hex digest (`sha224 s` is the hexdigest of a hash object
updated with the single chunk `s`; with no update call the argument is
the empty string) and the geolocation resolver `get_geoip`. -/
def anonymize_user (sha224 : String → String) (geoip : String → Option String)
    (doc : Doc) : Doc :=
  let ip := doc "ip_address"
  let d1 := dpop doc "ip_address"
  let d2 := if truthy ip then
      dset d1 "country" (match geoip (fmtVal ip) with
        | some c => .vStr c
        | none => .vNull)
    else d1
  let uid := d2 "user_id"
  let d3 := dpop d2 "user_id"
  let sid := d3 "session_id"
  let d4 := dpop d3 "session_id"
  let ua := d4 "user_agent"
  let d5 := dpop d4 "user_agent"
  let timeslice := match d5 "timestamp" with
    | some (.vTime t) => timesliceOf t
    | _ => ""
  let visitorMsg :=
    if truthy uid then fmtVal uid
    else if truthy sid then fmtVal sid
    else if truthy ip && truthy ua then
      fmtVal ip ++ "|" ++ fmtVal ua ++ "|" ++ timeslice
    else ""
  let sessionMsg :=
    if truthy uid then fmtVal uid ++ "|" ++ timeslice
    else if truthy sid then fmtVal sid ++ "|" ++ timeslice
    else if truthy ip && truthy ua then
      fmtVal ip ++ "|" ++ fmtVal ua ++ "|" ++ timeslice
    else ""
  let d6 := dset d5 "visitor_id" (.vStr (sha224 visitorMsg))
  dset d6 "unique_session_id" (.vStr (sha224 sessionMsg))

/-- `flag_robots`, parameterised by the external `counter_robots`
classifier: `doc['is_robot'] = 'user_agent' in doc and
is_robot(doc['user_agent'])`. -/
def flag_robots (robot : Value → Bool) (doc : Doc) : Doc :=
  dset doc "is_robot" (.vBool (match doc "user_agent" with
    | some v => robot v
    | none => false))

/-- `hash_id` from `invenio_stats/processors.py`, parameterised by the
SHA-1 hex digest.  `msg.get('unique_id')` is encoded without a `str()`
wrapper, so a missing (or non-string) `unique_id` raises; that failure is
modelled as `none`.  `visitor_id` is wrapped in `str()`. -/
def hash_id (sha1 : String → String) (iso : String) (msg : Doc) :
    Option String :=
  match msg "unique_id" with
  | some (.vStr uid) =>
      some (iso ++ "-" ++ sha1 (uid ++ pyStrOpt (msg "visitor_id")))
  | _ => none

/-- One bulk action emitted by `EventsIndexer.actionsiter`. -/
structure Action where
  id : String
  opType : String
  index : String
  docType : String
  source : Doc

/-- The `EventsIndexer` configuration: queue routing key, SHA-1 digest,
preprocessor chain and double-click window.  The index name prefix and
suffix format keep their default values (`'events'`, `'%Y-%m-%d'`). -/
structure IndexerCfg where
  routingKey : String
  sha1 : String → String
  preprocs : List (Doc → Option Doc)
  doubleClickWindow : Nat

/-- `self.index = '...'.format(prefix, self.queue.routing_key)` with the
default prefix. -/
def indexName (cfg : IndexerCfg) : String :=
  "events" ++ "-" ++ cfg.routingKey

/-- The preprocessor loop of `actionsiter`: apply each preprocessor in
order, stopping as soon as one returns `None`. -/
def chainApply : List (Doc → Option Doc) → Doc → Option Doc
  | [], d => some d
  | f :: fs, d =>
    match f d with
    | none => none
    | some d2 => chainApply fs d2

/-- The double-click windowing of `actionsiter`: when the window is
positive, floor the epoch seconds to a multiple of the window and convert
back; a zero window leaves the timestamp unchanged. -/
def dedupInstant (w : Nat) (ts : DateTime) : DateTime :=
  if 0 < w then fromEpoch (toEpoch ts / w * w) else ts

/-- The per-event body of `actionsiter` after the preprocessor chain:
compute the index suffix from the event timestamp, truncate the stored
timestamp to whole seconds, apply double-click windowing for the id only,
and emit the bulk action.  A missing/unparseable timestamp or a `hash_id`
failure is a raised exception in the source, modelled as `none`. -/
def processSurvivor (cfg : IndexerCfg) (msg : Doc) : Option Action :=
  match msg "timestamp" with
  | some (.vTime ts0) =>
    let sfx := suffixOf ts0
    let ts := truncateSec ts0
    let msg2 := dset msg "timestamp" (.vStr (isoformat ts))
    let tsId := dedupInstant cfg.doubleClickWindow ts
    match hash_id cfg.sha1 (isoformat tsId) msg2 with
    | some i =>
        some ⟨i, "index", indexName cfg ++ "-" ++ sfx, cfg.routingKey, msg2⟩
    | none => none
  | _ => none

/-- `EventsIndexer.actionsiter` over a drained queue: events vetoed by
the chain are skipped silently; a per-event exception aborts the
iteration (modelled as `Except.error`). -/
def actionsiter (cfg : IndexerCfg) : List Doc → Except Unit (List Action)
  | [] => .ok []
  | m :: ms =>
    match chainApply cfg.preprocs m with
    | none => actionsiter cfg ms
    | some m2 =>
      match processSurvivor cfg m2 with
      | none => .error ()
      | some a =>
        match actionsiter cfg ms with
        | .ok rest => .ok (a :: rest)
        | .error e => .error e

/-- `EventsIndexer.default_preprocessors = [flag_robots, anonymize_user]`,
wrapped as chain members (both always return a document). -/
def default_preprocessors (robot : Value → Bool) (sha224 : String → String)
    (geoip : String → Option String) : List (Doc → Option Doc) :=
  [fun d => some (flag_robots robot d),
   fun d => some (anonymize_user sha224 geoip d)]

/-- The key string built by `build_file_unique_id` in
`contrib/event_builders.py`.  The source passes eight arguments
(`bucket_id, file_id, userrole, accessrole, index_list,
site_license_flag, country, cur_user_id`) to a format string with only
seven placeholders, so `cur_user_id` is silently ignored by
`str.format`. -/
def fileKey (doc : Doc) : String :=
  pyStrOpt (doc "bucket_id") ++ "_" ++ pyStrOpt (doc "file_id") ++ "_" ++
  pyStrOpt (doc "userrole") ++ "_" ++ pyStrOpt (doc "accessrole") ++ "_" ++
  pyStrOpt (doc "index_list") ++ "_" ++
  pyStrOpt (doc "site_license_flag") ++ "_" ++ pyStrOpt (doc "country")

/-- `build_file_unique_id`, parameterised by the
`uuid.uuid3(uuid.NAMESPACE_DNS, key)` digest. -/
def build_file_unique_id (uuid3 : String → String) (doc : Doc) : Doc :=
  dset doc "unique_id" (.vStr (uuid3 (fileKey doc)))

/-- Modelled from the spec: the claimed document-id formula
`hash(ts_dedup_iso + ":" + sha1(unique_id + visitor_id))`, with the outer
hash and the SHA-1 digest abstract.  Stated for comparison with the
source's `hash_id`, which joins with `"-"` and applies no outer hash. -/
def specDocId (hashFn sha1 : String → String) (iso uid vid : String) :
    String :=
  hashFn (iso ++ ":" ++ sha1 (uid ++ vid))

/-- A concrete digest stand-in used by witnesses and counterexamples. -/
def shaC : String → String := fun s => "h" ++ s

/-- The identity digest stand-in used by the C2 counterexample. -/
def strId : String → String := fun s => s

/-- A concrete geolocation stand-in that never resolves. -/
def geoNone : String → Option String := fun _ => none

/-- A concrete robot classifier stand-in. -/
def robotNo : Value → Bool := fun _ => false

/-- An event carrying only a timestamp (no identity fields). -/
def docBare : Doc :=
  fun k => if k = "timestamp" then some (.vTime ⟨2017, 1, 1, 0, 0, 0, 0⟩)
    else none

/-- An event with a logged-in user, 2017-01-01. -/
def docUser : Doc :=
  fun k =>
    if k = "timestamp" then some (.vTime ⟨2017, 1, 1, 10, 30, 0, 0⟩)
    else if k = "user_id" then some (.vStr "alice")
    else none

/-- The same user's event one day later. -/
def docUserNextDay : Doc :=
  fun k =>
    if k = "timestamp" then some (.vTime ⟨2017, 1, 2, 10, 30, 0, 0⟩)
    else if k = "user_id" then some (.vStr "alice")
    else none

/-- An event ready for id computation, 5 seconds past the epoch. -/
def docT5 : Doc :=
  fun k =>
    if k = "timestamp" then some (.vTime ⟨1970, 1, 1, 0, 0, 5, 0⟩)
    else if k = "unique_id" then some (.vStr "u")
    else if k = "visitor_id" then some (.vStr "v")
    else none

/-- The same event at 14 seconds past the epoch (offset W - eps = 9 for
window 10 and eps 1). -/
def docT14 : Doc :=
  fun k =>
    if k = "timestamp" then some (.vTime ⟨1970, 1, 1, 0, 0, 14, 0⟩)
    else if k = "unique_id" then some (.vStr "u")
    else if k = "visitor_id" then some (.vStr "v")
    else none

/-- An indexer configuration with the default 10-second window and no
preprocessors. -/
def cfg10 : IndexerCfg := ⟨"file-download", strId, [], 10⟩

/-- Document used by the C2 counterexample: `unique_id` containing a
colon. -/
def docColon1 : Doc :=
  fun k =>
    if k = "unique_id" then some (.vStr "b:c")
    else if k = "visitor_id" then some (.vStr "")
    else none

/-- Document used by the C2 counterexample: short `unique_id`. -/
def docColon2 : Doc :=
  fun k =>
    if k = "unique_id" then some (.vStr "c")
    else if k = "visitor_id" then some (.vStr "")
    else none

/-- A download event with `cur_user_id` 1. -/
def docDl1 : Doc :=
  fun k =>
    if k = "bucket_id" then some (.vStr "b0")
    else if k = "file_id" then some (.vStr "f0")
    else if k = "userrole" then some (.vStr "guest")
    else if k = "accessrole" then some (.vStr "open_access")
    else if k = "index_list" then some (.vStr "idx")
    else if k = "site_license_flag" then some (.vBool false)
    else if k = "country" then some (.vStr "CH")
    else if k = "cur_user_id" then some (.vStr "1")
    else none

/-- The same download event performed by user 2. -/
def docDl2 : Doc :=
  fun k =>
    if k = "bucket_id" then some (.vStr "b0")
    else if k = "file_id" then some (.vStr "f0")
    else if k = "userrole" then some (.vStr "guest")
    else if k = "accessrole" then some (.vStr "open_access")
    else if k = "index_list" then some (.vStr "idx")
    else if k = "site_license_flag" then some (.vBool false)
    else if k = "country" then some (.vStr "CH")
    else if k = "cur_user_id" then some (.vStr "2")
    else none

/-- The same event as `docT5` at 9 seconds past the epoch (same 10-second
dedup bucket). -/
def docT9 : Doc :=
  fun k =>
    if k = "timestamp" then some (.vTime ⟨1970, 1, 1, 0, 0, 9, 0⟩)
    else if k = "unique_id" then some (.vStr "u")
    else if k = "visitor_id" then some (.vStr "v")
    else none

/-- An event carrying an IP address and a timestamp. -/
def docIp : Doc :=
  fun k =>
    if k = "timestamp" then some (.vTime ⟨2017, 1, 1, 0, 0, 0, 0⟩)
    else if k = "ip_address" then some (.vStr "1.2.3.4")
    else none

/-- The bulk action emitted for `docT5` under `cfg10`. -/
def wAct5 : Action :=
  ⟨"1970-01-01T00:00:00-uv", "index", "events-file-download-1970-01-01",
   "file-download", dset docT5 "timestamp" (.vStr "1970-01-01T00:00:05")⟩

/-- The bulk action emitted for `docT9` under `cfg10`. -/
def wAct9 : Action :=
  ⟨"1970-01-01T00:00:00-uv", "index", "events-file-download-1970-01-01",
   "file-download", dset docT9 "timestamp" (.vStr "1970-01-01T00:00:09")⟩

/-- A configuration whose single preprocessor vetoes every event. -/
def cfgVeto : IndexerCfg := ⟨"file-download", strId, [fun _ => none], 10⟩

set_option maxRecDepth 4000 in
theorem yearCheck_all : ∀ y : Nat, y < 400 → yearCheck y = true := by decide

theorem yearOfEra_mono {a b : Nat} (h : a ≤ b) : yearOfEra a ≤ yearOfEra b :=
  Nat.div_le_div_right (by unfold yNum; omega)

theorem era_bounds (doe : Nat) (h : doe ≤ 146096) :
    yearOfEra doe ≤ 399 ∧ dby (yearOfEra doe) ≤ doe ∧
      doe - dby (yearOfEra doe) ≤ 365 := by
  have hcheck : ∀ y : Nat, y < 400 →
      yearOfEra (dby y) = y ∧ yearOfEra (dby (y + 1) - 1) = y := by
    intro y hy
    have hc := yearCheck_all y hy
    simp only [yearCheck, Bool.and_eq_true, beq_iff_eq] at hc
    exact hc
  have h399 : yearOfEra doe ≤ 399 := by
    have h1 : yearOfEra doe ≤ yearOfEra 146096 := yearOfEra_mono h
    have h2 : yearOfEra 146096 = 399 := by decide
    omega
  refine ⟨h399, ?_, ?_⟩
  · by_cases hy0 : yearOfEra doe = 0
    · rw [hy0]; simp [dby]
    · by_contra hlt
      push_neg at hlt
      have hc := (hcheck (yearOfEra doe - 1) (by omega)).2
      have he : yearOfEra doe - 1 + 1 = yearOfEra doe := by omega
      rw [he] at hc
      have hm : yearOfEra doe ≤ yearOfEra (dby (yearOfEra doe) - 1) :=
        yearOfEra_mono (by omega)
      omega
  · by_cases hy : yearOfEra doe ≤ 398
    · by_contra hbig
      push_neg at hbig
      have hc1 := (hcheck (yearOfEra doe + 1) (by omega)).1
      have hlen : dby (yearOfEra doe + 1) ≤ dby (yearOfEra doe) + 366 := by
        unfold dby; omega
      have hm : yearOfEra (dby (yearOfEra doe + 1)) ≤ yearOfEra doe :=
        yearOfEra_mono (by omega)
      omega
    · have h399e : yearOfEra doe = 399 := by omega
      have hd : dby 399 = 145731 := by decide
      rw [h399e, hd]
      omega

theorem monthday (doy mp d m : Nat) (h : doy ≤ 365)
    (hmp : mp = (5 * doy + 2) / 153)
    (hd : d = doy - (153 * mp + 2) / 5 + 1)
    (hm : m = if mp < 10 then mp + 3 else mp - 9) :
    (153 * (if 2 < m then m - 3 else m + 9) + 2) / 5 + d - 1 = doy ∧
      1 ≤ m ∧ m ≤ 12 ∧ 1 ≤ d ∧ d ≤ 31 := by
  subst hmp hd hm
  split_ifs <;> omega

theorem daysFromCivil_civilFromDays (n : Nat) :
    daysFromCivil (civilFromDays n).1 (civilFromDays n).2.1
      (civilFromDays n).2.2 = n := by
  have hdoe : (n + 719468) % 146097 ≤ 146096 := by omega
  obtain ⟨h399, hlo, hhi⟩ := era_bounds _ hdoe
  unfold daysFromCivil civilFromDays
  simp only
  set E := (n + 719468) / 146097 with hE
  set D := (n + 719468) % 146097 with hD
  set y := yearOfEra D with hy
  set b := dby y with hb
  set doy := D - b with hdoy
  set mp := (5 * doy + 2) / 153 with hmp
  set d := doy - (153 * mp + 2) / 5 + 1 with hd
  set m := if mp < 10 then mp + 3 else mp - 9 with hm
  obtain ⟨hmd1, hm1, hm12, hd1, hd31⟩ := monthday doy mp d m hhi hmp hd hm
  by_cases hc : m ≤ 2
  · rw [if_pos hc, if_pos hc]
    have hy2 : y + E * 400 + 1 - 1 = y + E * 400 := by omega
    rw [hy2]
    have hmod : (y + E * 400) % 400 = y := by omega
    have hdiv : (y + E * 400) / 400 = E := by omega
    rw [hmod, hdiv, ← hb, hmd1]
    omega
  · rw [if_neg hc, if_neg hc]
    have hmod : (y + E * 400) % 400 = y := by omega
    have hdiv : (y + E * 400) / 400 = E := by omega
    rw [hmod, hdiv, ← hb, hmd1]
    omega

theorem toEpoch_fromEpoch (e : Nat) : toEpoch (fromEpoch e) = e := by
  have h := daysFromCivil_civilFromDays (e / 86400)
  unfold toEpoch fromEpoch
  simp only
  omega

theorem civilFromDays_md_bounds (n : Nat) :
    1 ≤ (civilFromDays n).2.1 ∧ (civilFromDays n).2.1 ≤ 12 ∧
      1 ≤ (civilFromDays n).2.2 ∧ (civilFromDays n).2.2 ≤ 31 := by
  have hdoe : (n + 719468) % 146097 ≤ 146096 := by omega
  obtain ⟨h399, hlo, hhi⟩ := era_bounds _ hdoe
  unfold civilFromDays
  simp only
  set D := (n + 719468) % 146097 with hD
  set y := yearOfEra D with hy
  set b := dby y with hb
  set doy := D - b with hdoy
  set mp := (5 * doy + 2) / 153 with hmp
  set d := doy - (153 * mp + 2) / 5 + 1 with hd
  set m := if mp < 10 then mp + 3 else mp - 9 with hm
  obtain ⟨hmd1, hm1, hm12, hd1, hd31⟩ := monthday doy mp d m hhi hmp hd hm
  exact ⟨hm1, hm12, hd1, hd31⟩

theorem dfc_ge (y m d : Nat) (hm1 : 1 ≤ m) (hm12 : m ≤ 12) (hd1 : 1 ≤ d)
    (hy : 10000 ≤ y) : 2932897 ≤ daysFromCivil y m d := by
  unfold daysFromCivil dby
  simp only
  split_ifs <;> omega

theorem civilFromDays_year_le (n : Nat) (h : n ≤ 2932896) :
    (civilFromDays n).1 ≤ 9999 := by
  by_contra hgt
  push_neg at hgt
  obtain ⟨hm1, hm12, hd1, _⟩ := civilFromDays_md_bounds n
  have hge := dfc_ge (civilFromDays n).1 (civilFromDays n).2.1
    (civilFromDays n).2.2 hm1 hm12 hd1 (by omega)
  rw [daysFromCivil_civilFromDays n] at hge
  omega

theorem fromEpoch_bounds (e : Nat) (he : e < 253402300800) :
    (fromEpoch e).year ≤ 9999 ∧ (fromEpoch e).month ≤ 99 ∧
      (fromEpoch e).day ≤ 99 ∧ (fromEpoch e).hour ≤ 99 ∧
      (fromEpoch e).minute ≤ 99 ∧ (fromEpoch e).second ≤ 99 ∧
      (fromEpoch e).usec = 0 := by
  obtain ⟨hm1, hm12, hd1, hd31⟩ := civilFromDays_md_bounds (e / 86400)
  have hy := civilFromDays_year_le (e / 86400) (by omega)
  unfold fromEpoch
  simp only
  exact ⟨hy, by omega, by omega, by omega, by omega, by omega, trivial⟩

theorem digitChar_inj : ∀ a : Nat, a < 10 → ∀ b : Nat, b < 10 →
    digitChar a = digitChar b → a = b := by decide

theorem pad4_inj (a b : Nat) (ha : a ≤ 9999) (hb : b ≤ 9999)
    (h1 : a / 1000 % 10 = b / 1000 % 10) (h2 : a / 100 % 10 = b / 100 % 10)
    (h3 : a / 10 % 10 = b / 10 % 10) (h4 : a % 10 = b % 10) : a = b := by
  omega

theorem pad2_inj (a b : Nat) (ha : a ≤ 99) (hb : b ≤ 99)
    (h1 : a / 10 % 10 = b / 10 % 10) (h2 : a % 10 = b % 10) : a = b := by
  omega

theorem isoformat_inj (t1 t2 : DateTime)
    (hy1 : t1.year ≤ 9999) (hy2 : t2.year ≤ 9999)
    (hmo1 : t1.month ≤ 99) (hmo2 : t2.month ≤ 99)
    (hd1 : t1.day ≤ 99) (hd2 : t2.day ≤ 99)
    (hh1 : t1.hour ≤ 99) (hh2 : t2.hour ≤ 99)
    (hmi1 : t1.minute ≤ 99) (hmi2 : t2.minute ≤ 99)
    (hs1 : t1.second ≤ 99) (hs2 : t2.second ≤ 99)
    (hu1 : t1.usec = 0) (hu2 : t2.usec = 0)
    (h : isoformat t1 = isoformat t2) : t1 = t2 := by
  obtain ⟨y1, mo1, d1, h1, mi1, s1, u1⟩ := t1
  obtain ⟨y2, mo2, d2, h2, mi2, s2, u2⟩ := t2
  simp only at hy1 hy2 hmo1 hmo2 hd1 hd2 hh1 hh2 hmi1 hmi2 hs1 hs2 hu1 hu2
  subst hu1 hu2
  have h := congrArg String.data h
  simp only [isoformat, pad4, pad2] at h
  simp only [if_true] at h
  simp only [List.cons_append, List.nil_append, List.append_nil,
    List.cons.injEq, and_true] at h
  obtain ⟨e1, e2, e3, e4, _, e5, e6, _, e7, e8, _, e9, e10, _, e11, e12, _,
    e13, e14⟩ := h
  have g1 := digitChar_inj _ (by omega) _ (by omega) e1
  have g2 := digitChar_inj _ (by omega) _ (by omega) e2
  have g3 := digitChar_inj _ (by omega) _ (by omega) e3
  have g4 := digitChar_inj _ (by omega) _ (by omega) e4
  have g5 := digitChar_inj _ (by omega) _ (by omega) e5
  have g6 := digitChar_inj _ (by omega) _ (by omega) e6
  have g7 := digitChar_inj _ (by omega) _ (by omega) e7
  have g8 := digitChar_inj _ (by omega) _ (by omega) e8
  have g9 := digitChar_inj _ (by omega) _ (by omega) e9
  have g10 := digitChar_inj _ (by omega) _ (by omega) e10
  have g11 := digitChar_inj _ (by omega) _ (by omega) e11
  have g12 := digitChar_inj _ (by omega) _ (by omega) e12
  have g13 := digitChar_inj _ (by omega) _ (by omega) e13
  have g14 := digitChar_inj _ (by omega) _ (by omega) e14
  simp only [DateTime.mk.injEq]
  exact ⟨pad4_inj _ _ hy1 hy2 g1 g2 g3 g4, pad2_inj _ _ hmo1 hmo2 g5 g6,
    pad2_inj _ _ hd1 hd2 g7 g8, pad2_inj _ _ hh1 hh2 g9 g10,
    pad2_inj _ _ hmi1 hmi2 g11 g12, pad2_inj _ _ hs1 hs2 g13 g14, trivial⟩

theorem isoformat_fromEpoch_inj (e1 e2 : Nat) (h1 : e1 < 253402300800)
    (h2 : e2 < 253402300800)
    (h : isoformat (fromEpoch e1) = isoformat (fromEpoch e2)) : e1 = e2 := by
  obtain ⟨a1, a2, a3, a4, a5, a6, a7⟩ := fromEpoch_bounds e1 h1
  obtain ⟨b1, b2, b3, b4, b5, b6, b7⟩ := fromEpoch_bounds e2 h2
  have heq := isoformat_inj _ _ a1 b1 a2 b2 a3 b3 a4 b4 a5 b5 a6 b6 a7 b7 h
  have he := congrArg toEpoch heq
  rw [toEpoch_fromEpoch, toEpoch_fromEpoch] at he
  exact he

theorem string_append_cancel_right (s1 s2 t : String) (h : s1 ++ t = s2 ++ t) :
    s1 = s2 := by
  have hd := congrArg String.data h
  rw [String.data_append, String.data_append] at hd
  exact String.ext (List.append_cancel_right hd)

theorem toEpoch_truncateSec (t : DateTime) :
    toEpoch (truncateSec t) = toEpoch t := rfl

theorem suffixOf_truncateSec (t : DateTime) :
    suffixOf (truncateSec t) = suffixOf t := rfl

theorem div_mul_same_bucket {e W eps : Nat} (hW : 0 < W) (heps : eps < W)
    (hlt : e % W < eps) : (e + W - eps) / W = e / W := by
  have h0 : W * (e / W) + e % W = e := Nat.div_add_mod e W
  have hrew : e + W - eps = (e % W + W - eps) + W * (e / W) := by omega
  rw [hrew, Nat.add_mul_div_left _ _ hW, Nat.div_eq_of_lt (by omega)]
  omega

theorem div_next_bucket {e W eps : Nat} (hW : 0 < W) (_heps : eps < W)
    (hge : eps ≤ e % W) : (e + W - eps) / W = e / W + 1 := by
  have h0 : W * (e / W) + e % W = e := Nat.div_add_mod e W
  have hmod : e % W < W := Nat.mod_lt _ hW
  have hrew : e + W - eps = (e % W - eps + W) + W * (e / W) := by omega
  rw [hrew, Nat.add_mul_div_left _ _ hW, Nat.add_div_right _ hW,
    Nat.div_eq_of_lt (by omega)]
  omega

theorem div_beyond_bucket {e W eps : Nat} (hW : 0 < W) :
    e / W < (e + W + eps) / W := by
  have h1 : (e + W) / W = e / W + 1 := Nat.add_div_right _ hW
  have h2 : (e + W) / W ≤ (e + W + eps) / W := Nat.div_le_div_right (by omega)
  omega

theorem chainApply_append (fs gs : List (Doc → Option Doc)) (d : Doc) :
    chainApply (fs ++ gs) d =
      match chainApply fs d with
      | none => none
      | some d2 => chainApply gs d2 := by
  induction fs generalizing d with
  | nil => rfl
  | cons f fs ih =>
    simp only [List.cons_append, chainApply]
    cases f d with
    | none => rfl
    | some d2 => exact ih d2

theorem flag_robots_frame (robot : Value → Bool) (doc : Doc) (x : String)
    (h : x ≠ "is_robot") : flag_robots robot doc x = doc x := by
  simp [flag_robots, dset, h]

theorem anonymize_user_frame (sha224 : String → String)
    (geoip : String → Option String) (doc : Doc) (x : String)
    (h1 : x ≠ "ip_address") (h2 : x ≠ "user_id") (h3 : x ≠ "session_id")
    (h4 : x ≠ "user_agent") (h5 : x ≠ "country") (h6 : x ≠ "visitor_id")
    (h7 : x ≠ "unique_session_id") :
    anonymize_user sha224 geoip doc x = doc x := by
  simp only [anonymize_user, dset, dpop]
  simp only [h1, h2, h3, h4, h5, h6, h7, if_false, ite_false]
  rw [apply_ite (fun d : Doc => d x)]
  simp [dset, dpop, h1, h5]

theorem hash_id_dset_timestamp (sha1 : String → String) (iso : String)
    (m : Doc) (v : Value) :
    hash_id sha1 iso (dset m "timestamp" v) = hash_id sha1 iso m := by
  simp [hash_id, dset]

theorem processSurvivor_char (cfg : IndexerCfg) (m : Doc) (ts : DateTime)
    (hts : m "timestamp" = some (.vTime ts)) :
    processSurvivor cfg m =
      (hash_id cfg.sha1
        (isoformat (dedupInstant cfg.doubleClickWindow (truncateSec ts)))
        (dset m "timestamp" (.vStr (isoformat (truncateSec ts))))).map
      (fun i =>
        ⟨i, "index", indexName cfg ++ "-" ++ suffixOf ts, cfg.routingKey,
         dset m "timestamp" (.vStr (isoformat (truncateSec ts)))⟩) := by
  unfold processSurvivor
  rw [hts]
  simp only
  cases hash_id cfg.sha1
      (isoformat (dedupInstant cfg.doubleClickWindow (truncateSec ts)))
      (dset m "timestamp" (.vStr (isoformat (truncateSec ts)))) with
  | none => rfl
  | some i => rfl

theorem processSurvivor_id_eq (cfg : IndexerCfg) (m : Doc) (ts : DateTime)
    (uid vid : String)
    (hts : m "timestamp" = some (.vTime ts))
    (hu : m "unique_id" = some (.vStr uid))
    (hv : m "visitor_id" = some (.vStr vid)) :
    (processSurvivor cfg m).map Action.id =
      some (isoformat (dedupInstant cfg.doubleClickWindow (truncateSec ts)) ++
        "-" ++ cfg.sha1 (uid ++ vid)) := by
  rw [processSurvivor_char cfg m ts hts]
  rw [Option.map_map]
  rw [hash_id_dset_timestamp]
  unfold hash_id
  rw [hu, hv]
  simp [pyStrOpt, pyStr]

/-- C4: the Anonymizer removes all four PII fields (`ip_address`,
`user_id`, `session_id`, `user_agent`), adds at most the fields
`country`, `visitor_id`, `unique_session_id`, and leaves every other
field of the input event unchanged. -/
theorem anonymize_user_pii_frame (sha224 : String → String)
    (geoip : String → Option String) (doc : Doc) :
    anonymize_user sha224 geoip doc "ip_address" = none ∧
    anonymize_user sha224 geoip doc "user_id" = none ∧
    anonymize_user sha224 geoip doc "session_id" = none ∧
    anonymize_user sha224 geoip doc "user_agent" = none ∧
    (∀ x : String, x ≠ "ip_address" → x ≠ "user_id" → x ≠ "session_id" →
      x ≠ "user_agent" → x ≠ "country" → x ≠ "visitor_id" →
      x ≠ "unique_session_id" → anonymize_user sha224 geoip doc x = doc x) := by
  refine ⟨?_, ?_, ?_, ?_, ?_⟩
  · simp only [anonymize_user, dset, dpop]
    simp
    split <;> simp [dset, dpop]
  · simp [anonymize_user, dset, dpop]
  · simp [anonymize_user, dset, dpop]
  · simp [anonymize_user, dset, dpop]
  · intro x h1 h2 h3 h4 h5 h6 h7
    exact anonymize_user_frame sha224 geoip doc x h1 h2 h3 h4 h5 h6 h7

/-- Witness for C4 at a concrete event. -/
theorem anonymize_user_pii_frame_witness :
    anonymize_user shaC geoNone docDl1 "ip_address" = none ∧
    anonymize_user shaC geoNone docDl1 "bucket_id" = docDl1 "bucket_id" := by
  have h := anonymize_user_pii_frame shaC geoNone docDl1
  exact ⟨h.1, h.2.2.2.2 "bucket_id" (by decide) (by decide) (by decide)
    (by decide) (by decide) (by decide) (by decide)⟩

/-- C1 (amended): `unique_session_id` is always present: it is the
SHA-224 of, in priority order, `user_id|timeslice` when `user_id` is
truthy; else `session_id|timeslice` when `session_id` is truthy; else
`ip|user_agent|timeslice` when both are truthy; and in the remaining case
the SHA-224 of the empty string (the field is not absent). -/
theorem anonymize_user_unique_session_id (sha224 : String → String)
    (geoip : String → Option String) (doc : Doc) (ts : DateTime)
    (hts : doc "timestamp" = some (.vTime ts)) :
    (truthy (doc "user_id") = true →
      anonymize_user sha224 geoip doc "unique_session_id" =
        some (.vStr (sha224
          (fmtVal (doc "user_id") ++ "|" ++ timesliceOf ts)))) ∧
    (truthy (doc "user_id") = false → truthy (doc "session_id") = true →
      anonymize_user sha224 geoip doc "unique_session_id" =
        some (.vStr (sha224
          (fmtVal (doc "session_id") ++ "|" ++ timesliceOf ts)))) ∧
    (truthy (doc "user_id") = false → truthy (doc "session_id") = false →
     truthy (doc "ip_address") = true → truthy (doc "user_agent") = true →
      anonymize_user sha224 geoip doc "unique_session_id" =
        some (.vStr (sha224 (fmtVal (doc "ip_address") ++ "|" ++
          fmtVal (doc "user_agent") ++ "|" ++ timesliceOf ts)))) ∧
    (truthy (doc "user_id") = false → truthy (doc "session_id") = false →
     (truthy (doc "ip_address") = false ∨ truthy (doc "user_agent") = false) →
      anonymize_user sha224 geoip doc "unique_session_id" =
        some (.vStr (sha224 ""))) := by
  refine ⟨?_, ?_, ?_, ?_⟩
  · intro h
    cases hip : truthy (doc "ip_address") <;>
      simp [anonymize_user, dset, dpop, hip, h, hts]
  · intro h1 h2
    cases hip : truthy (doc "ip_address") <;>
      simp [anonymize_user, dset, dpop, hip, h1, h2, hts]
  · intro h1 h2 h3 h4
    simp [anonymize_user, dset, dpop, h1, h2, h3, h4, hts]
  · intro h1 h2 h3
    rcases h3 with h3 | h3
    · simp [anonymize_user, dset, dpop, h1, h2, h3, hts]
    · cases hip : truthy (doc "ip_address") <;>
        simp [anonymize_user, dset, dpop, hip, h1, h2, h3, hts]

/-- Witness for C1 at a concrete logged-in event. -/
theorem anonymize_user_unique_session_id_witness :
    docUser "timestamp" = some (.vTime ⟨2017, 1, 1, 10, 30, 0, 0⟩) ∧
    truthy (docUser "user_id") = true ∧
    anonymize_user shaC geoNone docUser "unique_session_id" =
      some (.vStr (shaC "alice|2017010110")) := by
  refine ⟨by decide, by decide, ?_⟩
  have h := (anonymize_user_unique_session_id shaC geoNone docUser
    ⟨2017, 1, 1, 10, 30, 0, 0⟩ (by decide)).1 (by decide)
  rw [h]
  decide

/-- Counterexample to C1 as stated: an event with no user id, no session
id, no IP address and no user agent still receives a
`unique_session_id` field (the digest of the empty string), where the
claim says the field is absent. -/
theorem anonymize_user_unique_session_id_counterexample :
    docBare "user_id" = none ∧ docBare "session_id" = none ∧
    docBare "ip_address" = none ∧ docBare "user_agent" = none ∧
    anonymize_user shaC geoNone docBare "unique_session_id" ≠ none := by
  refine ⟨by decide, by decide, by decide, by decide, by decide⟩

/-- C5 (amended): when `ip_address` is truthy the Anonymizer sets
`country` to the geolocation resolver's result (the null value when the
resolver finds no country); when `ip_address` is absent or falsy the
`country` field is not written at all (it keeps whatever the input
had, absent included). -/
theorem anonymize_user_country (sha224 : String → String)
    (geoip : String → Option String) (doc : Doc) :
    (truthy (doc "ip_address") = true →
      anonymize_user sha224 geoip doc "country" =
        some (match geoip (fmtVal (doc "ip_address")) with
          | some c => .vStr c
          | none => .vNull)) ∧
    (truthy (doc "ip_address") = false →
      anonymize_user sha224 geoip doc "country" = doc "country") := by
  constructor
  · intro h
    simp [anonymize_user, dset, dpop, h]
  · intro h
    simp [anonymize_user, dset, dpop, h]

/-- Witness for C5: with an IP present and a resolver that finds no
country, the stored `country` is the null value; with no IP, the field
stays absent. -/
theorem anonymize_user_country_witness :
    truthy (docIp "ip_address") = true ∧
    anonymize_user shaC geoNone docIp "country" = some .vNull ∧
    truthy (docBare "ip_address") = false ∧
    anonymize_user shaC geoNone docBare "country" = docBare "country" := by
  refine ⟨by decide, ?_, by decide,
    (anonymize_user_country shaC geoNone docBare).2 (by decide)⟩
  have h := (anonymize_user_country shaC geoNone docIp).1 (by decide)
  rw [h]
  decide

/-- Counterexample to C5 as stated: for an event without `ip_address`
the resulting event has no `country` field at all, where the claim says
the field is present with a null value. -/
theorem anonymize_user_country_counterexample :
    docBare "ip_address" = none ∧
    anonymize_user shaC geoNone docBare "country" = none := by
  refine ⟨by decide, by decide⟩

/-- C7 (code evaluated at the failing input): `anonymize_user`
incorporates no anonymization salt, so the same user id hashed on two
different days yields the same `visitor_id`, for every digest and
resolver.  The daily salt promised by the spec (and by the source's own
TODO comment and by `get_user`'s docstring) is never applied:
`get_anonymization_salt` has no caller in the processors. -/
theorem anonymize_user_no_daily_salt (sha224 : String → String)
    (geoip : String → Option String) :
    docUser "timestamp" ≠ docUserNextDay "timestamp" ∧
    anonymize_user sha224 geoip docUser "visitor_id" =
      anonymize_user sha224 geoip docUserNextDay "visitor_id" := by
  exact ⟨by decide, rfl⟩

/-- C8 (code evaluated at the failing input): `build_file_unique_id`
passes `cur_user_id` as an eighth argument to a format string with seven
placeholders, so two download events that differ only in the current
user id receive the same `unique_id`, for every digest. -/
theorem build_file_unique_id_ignores_user (uuid3 : String → String) :
    docDl1 "cur_user_id" = some (.vStr "1") ∧
    docDl2 "cur_user_id" = some (.vStr "2") ∧
    (∀ x : String, x ≠ "cur_user_id" → docDl1 x = docDl2 x) ∧
    build_file_unique_id uuid3 docDl1 "unique_id" =
      build_file_unique_id uuid3 docDl2 "unique_id" := by
  refine ⟨by decide, by decide, ?_, ?_⟩
  · intro x hx
    simp [docDl1, docDl2, hx]
  · rfl

/-- Witness for C8 at a concrete digest. -/
theorem build_file_unique_id_ignores_user_witness :
    build_file_unique_id strId docDl1 "unique_id" =
      build_file_unique_id strId docDl2 "unique_id" ∧
    docDl1 "file_id" = docDl2 "file_id" :=
  ⟨(build_file_unique_id_ignores_user strId).2.2.2,
   (build_file_unique_id_ignores_user strId).2.2.1 "file_id" (by decide)⟩

theorem processSurvivor_id_char (cfg : IndexerCfg) (m : Doc) (ts : DateTime)
    (hts : m "timestamp" = some (.vTime ts)) :
    (processSurvivor cfg m).map Action.id =
      hash_id cfg.sha1
        (isoformat (dedupInstant cfg.doubleClickWindow (truncateSec ts)))
        m := by
  rw [processSurvivor_char cfg m ts hts, Option.map_map,
    hash_id_dset_timestamp]
  cases hash_id cfg.sha1
      (isoformat (dedupInstant cfg.doubleClickWindow (truncateSec ts))) m with
  | none => rfl
  | some i => rfl

/-- C2 (amended): the document id is the dedup-floored instant's ISO
string joined by `"-"` to the SHA-1 hex digest of
`unique_id + str(visitor_id)` (there is no outer hash and the separator
is a hyphen); consequently the id is a deterministic function of
(dedup instant, unique_id, visitor_id), so two submissions
with the same unique_id, visitor_id and dedup-window instant receive
the same document id. -/
theorem hash_id_formula_deterministic :
    (∀ (sha1 : String → String) (iso : String) (m : Doc) (uid : String),
      m "unique_id" = some (.vStr uid) →
      hash_id sha1 iso m =
        some (iso ++ "-" ++ sha1 (uid ++ pyStrOpt (m "visitor_id")))) ∧
    (∀ (cfg : IndexerCfg) (m1 m2 : Doc) (ts1 ts2 : DateTime) (a1 a2 : Action),
      m1 "timestamp" = some (.vTime ts1) →
      m2 "timestamp" = some (.vTime ts2) →
      m1 "unique_id" = m2 "unique_id" →
      m1 "visitor_id" = m2 "visitor_id" →
      dedupInstant cfg.doubleClickWindow (truncateSec ts1) =
        dedupInstant cfg.doubleClickWindow (truncateSec ts2) →
      processSurvivor cfg m1 = some a1 →
      processSurvivor cfg m2 = some a2 →
      a1.id = a2.id) := by
  constructor
  · intro sha1 iso m uid hu
    unfold hash_id
    rw [hu]
  · intro cfg m1 m2 ts1 ts2 a1 a2 ht1 ht2 hu hv hded hp1 hp2
    have e1 := processSurvivor_id_char cfg m1 ts1 ht1
    have e2 := processSurvivor_id_char cfg m2 ts2 ht2
    rw [hp1] at e1
    rw [hp2] at e2
    simp only [Option.map_some'] at e1 e2
    have hsame : hash_id cfg.sha1
        (isoformat (dedupInstant cfg.doubleClickWindow (truncateSec ts1)))
        m1 =
      hash_id cfg.sha1
        (isoformat (dedupInstant cfg.doubleClickWindow (truncateSec ts2)))
        m2 := by
      unfold hash_id
      rw [hu, hv, hded]
    have := (e1.trans hsame).trans e2.symm
    exact Option.some.inj this

/-- Witness for C2: the formula at a concrete message, and equal ids for
two events 4 seconds apart inside one 10-second window. -/
theorem hash_id_formula_deterministic_witness :
    docT5 "unique_id" = some (.vStr "u") ∧
    hash_id strId "x" docT5 =
      some ("x" ++ "-" ++ strId ("u" ++ pyStrOpt (docT5 "visitor_id"))) ∧
    processSurvivor cfg10 docT5 = some wAct5 ∧
    processSurvivor cfg10 docT9 = some wAct9 ∧
    wAct5.id = wAct9.id := by
  refine ⟨by decide, hash_id_formula_deterministic.1 strId "x" docT5 "u"
    (by decide), rfl, rfl, ?_⟩
  exact hash_id_formula_deterministic.2 cfg10 docT5 docT9
    ⟨1970, 1, 1, 0, 0, 5, 0⟩ ⟨1970, 1, 1, 0, 0, 9, 0⟩ wAct5 wAct9
    (by decide) (by decide) (by decide) (by decide) (by decide) rfl rfl

/-- Counterexample to C2 as stated: no outer hash function can realise
the claimed formula `hash(ts_dedup_iso + ":" + sha1(unique_id +
visitor_id))`, exhibited with the identity digest at two concrete
(iso, message) pairs whose colon-joined hash inputs coincide while the
ids computed by the source differ. -/
theorem hash_id_not_spec_formula :
    ¬ ∃ hashFn : String → String,
      ∀ (iso : String) (m : Doc) (uid : String),
        m "unique_id" = some (.vStr uid) →
        hash_id strId iso m =
          some (specDocId hashFn strId iso uid (pyStrOpt (m "visitor_id"))) := by
  rintro ⟨f, hf⟩
  have h1 := hf "a" docColon1 "b:c" (by decide)
  have h2 := hf "a:b" docColon2 "c" (by decide)
  have k1 : hash_id strId "a" docColon1 = some "a-b:c" := by decide
  have k2 : hash_id strId "a:b" docColon2 = some "a:b-c" := by decide
  have a1 : specDocId f strId "a" "b:c" (pyStrOpt (docColon1 "visitor_id")) =
      f "a:b:c" := by
    unfold specDocId
    congr 1
  have a2 : specDocId f strId "a:b" "c" (pyStrOpt (docColon2 "visitor_id")) =
      f "a:b:c" := by
    unfold specDocId
    congr 1
  rw [k1, a1] at h1
  rw [k2, a2] at h2
  have := (Option.some.inj h1).trans (Option.some.inj h2).symm
  exact absurd this (by decide)

/-- C6: the preprocessing chain stops at the first preprocessor that
returns null, regardless of what follows it, and the indexer skips the
vetoed event silently, continuing with the rest of the queue and
emitting no action and no error for it. -/
theorem chain_veto_silent :
    (∀ (fs gs : List (Doc → Option Doc)) (f : Doc → Option Doc) (d d2 : Doc),
      chainApply fs d = some d2 → f d2 = none →
      chainApply (fs ++ f :: gs) d = none) ∧
    (∀ (cfg : IndexerCfg) (m : Doc) (ms : List Doc),
      chainApply cfg.preprocs m = none →
      actionsiter cfg (m :: ms) = actionsiter cfg ms) := by
  constructor
  · intro fs gs f d d2 h1 h2
    rw [chainApply_append, h1]
    simp [chainApply, h2]
  · intro cfg m ms h
    simp [actionsiter, h]

/-- Witness for C6 with a vetoing preprocessor. -/
theorem chain_veto_silent_witness :
    chainApply ([] ++ (fun _ : Doc => (none : Option Doc)) :: []) docBare =
      none ∧
    actionsiter cfgVeto [docBare, docT5] = actionsiter cfgVeto [docT5] := by
  refine ⟨chain_veto_silent.1 [] [] _ docBare docBare rfl rfl, ?_⟩
  exact chain_veto_silent.2 cfgVeto docBare [docT5] rfl

/-- C9: the stored document keeps the timestamp truncated to whole
seconds, the target partition is named from the default prefix, the
event type and the (stored) timestamp's date - unchanged by truncation -
and neither the stored timestamp nor the partition depends on the
double-click window, which only enters the id. -/
theorem indexer_partition_and_timestamp (cfg : IndexerCfg) (m : Doc)
    (ts : DateTime) (a : Action)
    (hts : m "timestamp" = some (.vTime ts))
    (hp : processSurvivor cfg m = some a) :
    a.source "timestamp" = some (.vStr (isoformat (truncateSec ts))) ∧
    a.index = "events" ++ "-" ++ cfg.routingKey ++ "-" ++ suffixOf ts ∧
    suffixOf (truncateSec ts) = suffixOf ts ∧
    (∀ (w : Nat) (a2 : Action),
      processSurvivor ⟨cfg.routingKey, cfg.sha1, cfg.preprocs, w⟩ m =
        some a2 →
      a2.source "timestamp" = a.source "timestamp" ∧ a2.index = a.index) := by
  rw [processSurvivor_char cfg m ts hts] at hp
  cases hq : hash_id cfg.sha1
      (isoformat (dedupInstant cfg.doubleClickWindow (truncateSec ts)))
      (dset m "timestamp" (.vStr (isoformat (truncateSec ts)))) with
  | none => rw [hq] at hp; simp at hp
  | some i =>
    rw [hq] at hp
    simp only [Option.map_some'] at hp
    obtain rfl := Option.some.inj hp.symm
    refine ⟨by simp [dset], rfl, suffixOf_truncateSec ts, ?_⟩
    intro w a2 hp2
    rw [processSurvivor_char ⟨cfg.routingKey, cfg.sha1, cfg.preprocs, w⟩
      m ts hts] at hp2
    cases hq2 : hash_id cfg.sha1
        (isoformat (dedupInstant w (truncateSec ts)))
        (dset m "timestamp" (.vStr (isoformat (truncateSec ts)))) with
    | none => rw [hq2] at hp2; simp at hp2
    | some i2 =>
      rw [hq2] at hp2
      simp only [Option.map_some'] at hp2
      obtain rfl := Option.some.inj hp2.symm
      exact ⟨rfl, rfl⟩

/-- Witness for C9 at a concrete event. -/
theorem indexer_partition_and_timestamp_witness :
    processSurvivor cfg10 docT5 = some wAct5 ∧
    wAct5.source "timestamp" = some (.vStr "1970-01-01T00:00:05") ∧
    wAct5.index = "events-file-download-1970-01-01" := by
  have h := indexer_partition_and_timestamp cfg10 docT5
    ⟨1970, 1, 1, 0, 0, 5, 0⟩ wAct5 (by decide) rfl
  refine ⟨rfl, ?_, ?_⟩
  · rw [h.1]
    decide
  · rw [h.2.1]
    decide

/-- C10: `hash_id` fails on any message without a string `unique_id`;
the default chain `[flag_robots, anonymize_user]` leaves `unique_id`
exactly as it was in the input; hence indexing an event that reaches the
default chain without a `unique_id` aborts at id computation. -/
theorem default_chain_hash_id_fails (robot : Value → Bool)
    (sha224 : String → String) (geoip : String → Option String) :
    (∀ (sha1 : String → String) (iso : String) (m : Doc),
      m "unique_id" = none → hash_id sha1 iso m = none) ∧
    (∀ doc : Doc,
      anonymize_user sha224 geoip (flag_robots robot doc) "unique_id" =
        doc "unique_id") ∧
    (∀ (rk : String) (sha1 : String → String) (w : Nat) (doc : Doc)
      (ts : DateTime) (ms : List Doc),
      doc "unique_id" = none → doc "timestamp" = some (.vTime ts) →
      actionsiter ⟨rk, sha1, default_preprocessors robot sha224 geoip, w⟩
        (doc :: ms) = .error ()) := by
  have hframe : ∀ doc : Doc, ∀ x : String,
      x ≠ "ip_address" → x ≠ "user_id" → x ≠ "session_id" →
      x ≠ "user_agent" → x ≠ "country" → x ≠ "visitor_id" →
      x ≠ "unique_session_id" → x ≠ "is_robot" →
      anonymize_user sha224 geoip (flag_robots robot doc) x = doc x := by
    intro doc x h1 h2 h3 h4 h5 h6 h7 h8
    rw [anonymize_user_frame sha224 geoip _ x h1 h2 h3 h4 h5 h6 h7,
      flag_robots_frame robot doc x h8]
  refine ⟨?_, ?_, ?_⟩
  · intro sha1 iso m hm
    unfold hash_id
    rw [hm]
  · intro doc
    exact hframe doc "unique_id" (by decide) (by decide) (by decide)
      (by decide) (by decide) (by decide) (by decide) (by decide)
  · intro rk sha1 w doc ts ms hu hts
    have hts2 : anonymize_user sha224 geoip (flag_robots robot doc)
        "timestamp" = some (.vTime ts) := by
      rw [hframe doc "timestamp" (by decide) (by decide) (by decide)
        (by decide) (by decide) (by decide) (by decide) (by decide)]
      exact hts
    have hu2 : anonymize_user sha224 geoip (flag_robots robot doc)
        "unique_id" = none := by
      rw [hframe doc "unique_id" (by decide) (by decide) (by decide)
        (by decide) (by decide) (by decide) (by decide) (by decide)]
      exact hu
    have hps : processSurvivor
        ⟨rk, sha1, default_preprocessors robot sha224 geoip, w⟩
        (anonymize_user sha224 geoip (flag_robots robot doc)) = none := by
      rw [processSurvivor_char _ _ ts hts2, hash_id_dset_timestamp]
      unfold hash_id
      rw [hu2]
      rfl
    simp only [default_preprocessors] at hps
    simp [actionsiter, default_preprocessors, chainApply, hps]

/-- C3 (amended): for a positive window W and two events with identical
`unique_id`/`visitor_id` at epoch seconds t and t + W - eps
(0 < eps < W), the document ids coincide exactly when the two instants
fall into the same W-window, i.e. when t mod W < eps; at t and
t + W + eps the ids always differ.  (The inequalities assume the
timestamps stay within `datetime`'s representable range, year <= 9999.) -/
theorem dedup_window_boundary
    (cfg : IndexerCfg) (m1 m2 : Doc) (ts1 ts2 : DateTime) (uid vid : String)
    (eps : Nat) (hW : 0 < cfg.doubleClickWindow)
    (ht1 : m1 "timestamp" = some (.vTime ts1))
    (ht2 : m2 "timestamp" = some (.vTime ts2))
    (hu1 : m1 "unique_id" = some (.vStr uid))
    (hu2 : m2 "unique_id" = some (.vStr uid))
    (hv1 : m1 "visitor_id" = some (.vStr vid))
    (hv2 : m2 "visitor_id" = some (.vStr vid))
    (heps0 : 0 < eps) (hepsW : eps < cfg.doubleClickWindow) :
    (toEpoch ts2 = toEpoch ts1 + cfg.doubleClickWindow - eps →
      ((toEpoch ts1 % cfg.doubleClickWindow < eps →
        (processSurvivor cfg m1).map Action.id =
          (processSurvivor cfg m2).map Action.id) ∧
       (eps ≤ toEpoch ts1 % cfg.doubleClickWindow →
        toEpoch ts2 < 253402300800 →
        (processSurvivor cfg m1).map Action.id ≠
          (processSurvivor cfg m2).map Action.id))) ∧
    (toEpoch ts2 = toEpoch ts1 + cfg.doubleClickWindow + eps →
      toEpoch ts2 < 253402300800 →
      (processSurvivor cfg m1).map Action.id ≠
        (processSurvivor cfg m2).map Action.id) := by
  have hid1 := processSurvivor_id_eq cfg m1 ts1 uid vid ht1 hu1 hv1
  have hid2 := processSurvivor_id_eq cfg m2 ts2 uid vid ht2 hu2 hv2
  have hded : ∀ t : DateTime,
      dedupInstant cfg.doubleClickWindow (truncateSec t) =
        fromEpoch (toEpoch t / cfg.doubleClickWindow *
          cfg.doubleClickWindow) := by
    intro t
    unfold dedupInstant
    rw [if_pos hW, toEpoch_truncateSec]
  rw [hded ts1] at hid1
  rw [hded ts2] at hid2
  set W := cfg.doubleClickWindow with hWdef
  set e1 := toEpoch ts1 with he1
  set e2 := toEpoch ts2 with he2
  have hle1 : e1 / W * W ≤ e1 := Nat.div_mul_le_self e1 W
  have hle2 : e2 / W * W ≤ e2 := Nat.div_mul_le_self e2 W
  constructor
  · intro hsum
    constructor
    · intro hlt
      rw [hid1, hid2]
      have hb : e2 / W = e1 / W := by
        rw [hsum]
        exact div_mul_same_bucket hW hepsW hlt
      rw [hb]
    · intro hge hbound heq
      rw [hid1, hid2] at heq
      have heq2 := Option.some.inj heq
      have hiso := string_append_cancel_right _ _ _
        (string_append_cancel_right _ _ _ heq2)
      have hee := isoformat_fromEpoch_inj (e1 / W * W) (e2 / W * W)
        (by omega) (by omega) hiso
      have hq : e1 / W = e2 / W := Nat.eq_of_mul_eq_mul_right hW hee
      have hb : e2 / W = e1 / W + 1 := by
        rw [hsum]
        exact div_next_bucket hW hepsW hge
      omega
  · intro hadd hbound heq
    rw [hid1, hid2] at heq
    have heq2 := Option.some.inj heq
    have hiso := string_append_cancel_right _ _ _
      (string_append_cancel_right _ _ _ heq2)
    have hee := isoformat_fromEpoch_inj (e1 / W * W) (e2 / W * W)
      (by omega) (by omega) hiso
    have hq : e1 / W = e2 / W := Nat.eq_of_mul_eq_mul_right hW hee
    have hb : e1 / W < e2 / W := by
      rw [hadd]
      exact div_beyond_bucket hW
    omega

/-- Witness for C3: events at epoch seconds 5 and 14 with window 10 and
eps 1 receive different ids (they straddle a window boundary). -/
theorem dedup_window_boundary_witness :
    toEpoch (⟨1970, 1, 1, 0, 0, 14, 0⟩ : DateTime) =
      toEpoch (⟨1970, 1, 1, 0, 0, 5, 0⟩ : DateTime) +
        cfg10.doubleClickWindow - 1 ∧
    (processSurvivor cfg10 docT5).map Action.id ≠
      (processSurvivor cfg10 docT14).map Action.id := by
  refine ⟨by decide, ?_⟩
  exact ((dedup_window_boundary cfg10 docT5 docT14 ⟨1970, 1, 1, 0, 0, 5, 0⟩
    ⟨1970, 1, 1, 0, 0, 14, 0⟩ "u" "v" 1 (by decide) (by decide) (by decide)
    (by decide) (by decide) (by decide) (by decide) (by decide)
    (by decide)).1 (by decide)).2 (by decide) (by decide)

/-- Counterexample to C3 as stated: with window W = 10 and eps = 1, the
events at epoch seconds 5 and 5 + W - eps = 14 do not collapse onto one
document id, because they lie in different 10-second windows - the claim
promised equal ids for every t. -/
theorem dedup_window_boundary_counterexample :
    cfg10.doubleClickWindow = 10 ∧
    toEpoch (⟨1970, 1, 1, 0, 0, 14, 0⟩ : DateTime) =
      toEpoch (⟨1970, 1, 1, 0, 0, 5, 0⟩ : DateTime) + 10 - 1 ∧
    (processSurvivor cfg10 docT5).map Action.id ≠
      (processSurvivor cfg10 docT14).map Action.id := by
  exact ⟨rfl, by decide, by decide⟩

/-- Witness for C10 at a concrete event without `unique_id`. -/
theorem default_chain_hash_id_fails_witness :
    docBare "unique_id" = none ∧
    actionsiter ⟨"stats", strId, default_preprocessors robotNo shaC geoNone,
      10⟩ [docBare] = .error () :=
  ⟨by decide,
   (default_chain_hash_id_fails robotNo shaC geoNone).2.2 "stats" strId 10
     docBare ⟨2017, 1, 1, 0, 0, 0, 0⟩ [] (by decide) (by decide)⟩

end InvenioStats
